import Mathlib

/- Shallow embedding of the process-lifecycle core of the Minecraft Server
   Manager (server.js): instance registry, process supervisor, log reader and
   command channel.  Paths are POSIX-style strings; one character of a Lean
   `String` stands for one byte of file content.  Randomness (the id suffix)
   and process identifiers are passed in explicitly. -/

namespace MCSM

/-- Error taxonomy of the specification (section 7).  Each distinct failing
branch of the code is mapped to the kind the specification assigns it. -/
inductive Err where
  | NotFound
  | Conflict
  | InvalidState
  | InvalidArgument
  | IOError
deriving DecidableEq

deriving instance DecidableEq for Except

/-- Split a character list at every occurrence of the separator character,
keeping empty segments (semantics of JS `String.prototype.split`). -/
def splitChar (c : Char) : List Char → List (List Char)
  | [] => [[]]
  | d :: rest =>
    if d = c then [] :: splitChar c rest
    else
      match splitChar c rest with
      | [] => [[d]]
      | g :: gs => (d :: g) :: gs

/-- Path-segment normalisation performed by Node's `path.join` /
`path.normalize`: empty and `.` segments are dropped, `..` pops the previous
segment (leading `..` segments of a relative path are kept). -/
def normSegs (acc : List String) : List String → List String
  | [] => acc.reverse
  | seg :: rest =>
    if seg = "" ∨ seg = "." then normSegs acc rest
    else if seg = ".." then
      match acc with
      | [] => normSegs [".."] rest
      | top :: below =>
        if top = ".." then normSegs (".." :: acc) rest else normSegs below rest
    else normSegs (seg :: acc) rest

/-- Join path segments with `/`. -/
def joinSegs : List String → String
  | [] => ""
  | [x] => x
  | x :: xs => x ++ "/" ++ joinSegs xs

/-- Node `path.join(a, b)` for relative POSIX paths: concatenate the segment
lists and normalise. -/
def pathJoin (a b : String) : String :=
  joinSegs (normSegs []
    (((splitChar '/' a.data) ++ (splitChar '/' b.data)).map (fun l => String.mk l)))

/-- Node `path.basename` (POSIX): strip trailing slashes, then keep the part
after the last slash. -/
def basename (s : String) : String :=
  String.mk (((s.data.reverse.dropWhile (fun c => c = '/')).takeWhile
    (fun c => c ≠ '/')).reverse)

/-- Character-list prefix test used to model "lies under this directory". -/
def strStarts (pre s : String) : Bool := pre.data.isPrefixOf s.data

/-- Persisted instance record: the serialized shape of one entry of
servers.json, with fields id, name, port, maxMemoryMB, jar, dir. -/
structure ServerRec where
  id : String
  name : String
  port : Nat
  maxMemoryMB : Nat
  jar : String
  dir : String
deriving DecidableEq

/-- File contents.  The registry file holds a parsed JSON document
(`json`); other files hold raw text; `corrupt` stands for contents on which
`JSON.parse` fails. -/
inductive FileData where
  | text (s : String)
  | json (recs : List ServerRec)
  | corrupt
deriving DecidableEq

/-- Filesystem state: an association list of file paths to contents plus the
set of directories. -/
structure FS where
  files : List (String × FileData)
  dirs : List String
deriving DecidableEq

def FS.existsPath (fs : FS) (p : String) : Bool :=
  fs.files.any (fun e => e.1 == p) || fs.dirs.any (fun d => d == p)

def FS.readFileData (fs : FS) (p : String) : Option FileData :=
  (fs.files.find? (fun e => e.1 == p)).map (fun e => e.2)

def FS.readFileText (fs : FS) (p : String) : Option String :=
  match fs.readFileData p with
  | some (.text s) => some s
  | _ => none

/-- `fs.writeFileSync`: replace the contents if the file exists, create it
otherwise. -/
def FS.writeFile (fs : FS) (p : String) (d : FileData) : FS :=
  if fs.files.any (fun e => e.1 == p) then
    { fs with files := fs.files.map (fun e => if e.1 == p then (e.1, d) else e) }
  else
    { fs with files := fs.files ++ [(p, d)] }

/-- Appending to a file opened with flags `a` (creates it when absent). -/
def FS.appendText (fs : FS) (p : String) (s : String) : FS :=
  match fs.readFileText p with
  | some c => fs.writeFile p (.text (c ++ s))
  | none => fs.writeFile p (.text s)

/-- `fs.mkdirSync(dir, { recursive: true })`. -/
def FS.mkdirp (fs : FS) (p : String) : FS :=
  if fs.dirs.any (fun d => d == p) then fs else { fs with dirs := fs.dirs ++ [p] }

/-- `fs.rmSync(dir, { recursive: true, force: true })`: remove the directory
and everything beneath it; no error when absent. -/
def FS.rmRec (fs : FS) (p : String) : FS :=
  { files := fs.files.filter (fun e => !(e.1 == p || strStarts (p ++ "/") e.1)),
    dirs := fs.dirs.filter (fun d => !(d == p || strStarts (p ++ "/") d)) }

/-- Paths of the files lying strictly inside directory `d`. -/
def FS.filesUnder (fs : FS) (d : String) : List String :=
  (fs.files.map Prod.fst).filter (fun p => strStarts (d ++ "/") p)

def DATA_DIR : String := "data"
def JAR_DIR : String := "data/jars"
def SERVERS_DIR : String := "data/servers"
def STATE_FILE : String := "data/servers.json"

/-- `loadServers`: missing state file yields the empty registry; contents on
which the JSON parse fails are logged and also yield the empty registry. -/
def loadServers (fs : FS) : List ServerRec :=
  if fs.existsPath STATE_FILE then
    match fs.readFileData STATE_FILE with
    | some (.json recs) => recs
    | _ => []
  else []

/-- `saveServers`: serialize the whole registry into the state file. -/
def saveServers (fs : FS) (servers : List ServerRec) : FS :=
  fs.writeFile STATE_FILE (.json servers)

/-- `getServer`: look the id up in the freshly loaded registry. -/
def getServer (fs : FS) (id : String) : Option ServerRec :=
  (loadServers fs).find? (fun r => r.id == id)

def isSlugChar (c : Char) : Bool :=
  ('a' ≤ c && c ≤ 'z') || ('0' ≤ c && c ≤ '9')

/-- Scanner for the global replace `[^a-z0-9]+` → `-`: `inRun` records
whether the previous character belonged to a non-alphanumeric run (whose
dash has already been emitted). -/
def collapseAux (inRun : Bool) : List Char → List Char
  | [] => []
  | c :: rest =>
    if isSlugChar c then c :: collapseAux false rest
    else if inRun then collapseAux true rest
    else '-' :: collapseAux true rest

/-- The global replace `[^a-z0-9]+` → `-`: every maximal run of
non-alphanumeric characters becomes a single dash. -/
def collapseRuns (l : List Char) : List Char := collapseAux false l

/-- The global replace `^-|-$` → the empty string: drop one leading and one
trailing dash. -/
def stripDashes (l : List Char) : List Char :=
  let l1 := if l.head? = some '-' then l.tail else l
  if l1.getLast? = some '-' then l1.dropLast else l1

/-- The slug of a name: lower-case it, collapse non-alphanumeric runs to
dashes, strip a leading and a trailing dash. -/
def slugify (name : String) : String :=
  String.mk (stripDashes (collapseRuns (name.data.map Char.toLower)))

/-- `generateId`: slug of the name, a dash, and the random suffix (modelled
as an explicit argument). -/
def generateId (name rand : String) : String :=
  slugify name ++ "-" ++ rand

/-- Runtime process handle: spawn data plus everything written to its input
stream and the path of the log file its output is wired to. -/
structure Proc where
  pid : Nat
  cmd : String
  args : List String
  cwd : String
  stdinWrites : List String
  logFile : String
deriving DecidableEq

/-- Whole-system state: the filesystem, the live process mapping `procMap`
and the pid the next spawn will return. -/
structure Sys where
  fs : FS
  procMap : List (String × Proc)
  nextPid : Nat
deriving DecidableEq

def lookupProc (m : List (String × Proc)) (id : String) : Option Proc :=
  (m.find? (fun e => e.1 == id)).map (fun e => e.2)

/-- `procMap.has(id)`. -/
def Sys.hasLive (st : Sys) (id : String) : Bool :=
  st.procMap.any (fun e => e.1 == id)

/-- POST /api/servers — create an instance.  `rand` is the random suffix
drawn inside `generateId`. -/
def createServer (st : Sys) (name : String) (port : Nat)
    (maxMemoryMB : Option Nat) (jar : String) (rand : String) :
    Except Err ServerRec × Sys :=
  if name = "" ∨ port = 0 ∨ jar = "" then (.error .InvalidArgument, st)
  else
    let jarPath := pathJoin JAR_DIR (basename jar)
    if !st.fs.existsPath jarPath then (.error .NotFound, st)
    else
      let id := generateId name rand
      let dir := pathJoin SERVERS_DIR id
      let fs1 := st.fs.mkdirp dir
      let propPath := pathJoin dir "server.properties"
      let fs2 :=
        if fs1.existsPath propPath then fs1
        else fs1.writeFile propPath (.text ("server-port=" ++ toString port ++
          "\nmax-players=20\nenable-jmx-monitoring=false\n"))
      let fs3 := fs2.writeFile (pathJoin dir "eula.txt") (.text "eula=true\n")
      let servers := loadServers fs3
      let mem := if maxMemoryMB.getD 0 = 0 then 1024 else maxMemoryMB.getD 0
      let newS : ServerRec :=
        { id := id, name := name, port := port, maxMemoryMB := mem,
          jar := basename jar, dir := dir }
      let fs4 := saveServers fs3 (servers ++ [newS])
      (.ok newS, { st with fs := fs4 })

/-- DELETE /api/servers/:id. -/
def deleteServer (st : Sys) (id : String) : Except Err Unit × Sys :=
  let servers := loadServers st.fs
  match servers.find? (fun r => r.id == id) with
  | none => (.error .NotFound, st)
  | some s =>
    if st.hasLive id then (.error .Conflict, st)
    else
      let fs1 := st.fs.rmRec s.dir
      let fs2 := saveServers fs1 (servers.filter (fun r => !(r.id == id)))
      (.ok (), { st with fs := fs2 })

/-- POST /api/servers/:id/start. -/
def startServer (st : Sys) (id : String) : Except Err Nat × Sys :=
  if st.hasLive id then (.error .Conflict, st)
  else
    match getServer st.fs id with
    | none => (.error .NotFound, st)
    | some s =>
      let jarPath := pathJoin JAR_DIR s.jar
      if !st.fs.existsPath jarPath then (.error .InvalidState, st)
      else
        let args :=
          (if s.maxMemoryMB ≠ 0 then
            ["-Xmx" ++ toString s.maxMemoryMB ++ "M",
             "-Xms" ++ toString (min 512 s.maxMemoryMB) ++ "M"]
          else []) ++ ["-jar", jarPath, "nogui"]
        let logFile := pathJoin s.dir "console.log"
        let child : Proc :=
          { pid := st.nextPid, cmd := "java", args := args, cwd := s.dir,
            stdinWrites := [], logFile := logFile }
        let fs1 :=
          if st.fs.existsPath logFile then st.fs
          else st.fs.writeFile logFile (.text "")
        (.ok child.pid,
          { st with fs := fs1, procMap := (id, child) :: st.procMap,
                    nextPid := st.nextPid + 1 })

/-- Record a write to the named process's input stream. -/
def writeStdin (st : Sys) (id : String) (line : String) : Sys :=
  { st with procMap := st.procMap.map (fun e =>
      if e.1 == id then
        (e.1, { e.2 with stdinWrites := e.2.stdinWrites ++ [line] })
      else e) }

/-- POST /api/servers/:id/stop — writes the graceful-stop line and returns;
never touches the live mapping itself. -/
def stopServer (st : Sys) (id : String) : Except Err Unit × Sys :=
  match lookupProc st.procMap id with
  | none => (.error .InvalidState, st)
  | some _ => (.ok (), writeStdin st id "stop\n")

/-- JS `String.prototype.trim`: remove leading and trailing whitespace. -/
def trimStr (s : String) : String :=
  String.mk (((s.data.dropWhile Char.isWhitespace).reverse.dropWhile
    Char.isWhitespace).reverse)

/-- POST /api/servers/:id/command. -/
def sendCommand (st : Sys) (id : String) (command : String) :
    Except Err Unit × Sys :=
  match lookupProc st.procMap id with
  | none => (.error .InvalidState, st)
  | some _ =>
    if command = "" then (.error .InvalidArgument, st)
    else (.ok (), writeStdin st id (trimStr command ++ "\n"))

/-- The trailer line the exit observer appends to the log. -/
def exitTrailer (code : Int) : String :=
  "\n[process exited with code " ++ toString code ++ "]\n"

/-- The `close` observer registered at spawn time: remove the live mapping
and append the exit-code trailer to the log the process was wired to. -/
def procExit (st : Sys) (id : String) (code : Int) : Sys :=
  match lookupProc st.procMap id with
  | none => st
  | some p =>
    { st with procMap := st.procMap.filter (fun e => !(e.1 == id)),
              fs := st.fs.appendText p.logFile (exitTrailer code) }

/-- Split on the regular expression `\r?\n` as JS `String.split` does:
`\r\n` and bare `\n` separate lines, a bare `\r` does not.  `acc` holds the
current line reversed. -/
def splitLinesAux (acc : List Char) : List Char → List String
  | [] => [String.mk acc.reverse]
  | '\r' :: '\n' :: rest => String.mk acc.reverse :: splitLinesAux [] rest
  | '\n' :: rest => String.mk acc.reverse :: splitLinesAux [] rest
  | c :: rest => splitLinesAux (c :: acc) rest

def splitLines (s : String) : List String := splitLinesAux [] s.data

/-- `array.join('\n')`. -/
def joinLines : List String → String
  | [] => ""
  | [l] => l
  | l :: ls => l ++ "\n" ++ joinLines ls

/-- The final `n` bytes of a file's contents. -/
def lastBytes (s : String) (n : Nat) : String :=
  String.mk (s.data.drop (s.data.length - n))

/-- GET /api/servers/:id/logs — read at most the final 1 MiB of the log,
split into lines, keep the final 2000, join with newlines.  A missing log
file yields empty content, a missing record NotFound. -/
def tailLogs (st : Sys) (id : String) : Except Err String :=
  match getServer st.fs id with
  | none => .error .NotFound
  | some s =>
    let logFile := pathJoin s.dir "console.log"
    match st.fs.readFileText logFile with
    | none => .ok ""
    | some content =>
      let size := min content.data.length 1048576
      let buf := lastBytes content size
      let lines := splitLines buf
      .ok (joinLines (lines.drop (lines.length - 2000)))

/-- The events whose interleavings define the reachable supervisor states. -/
inductive Event where
  | start (id : String)
  | stop (id : String)
  | command (id : String) (text : String)
  | delete (id : String)
  | exit (id : String) (code : Int)
deriving DecidableEq

def applyEvent (st : Sys) : Event → Sys
  | .start id => (startServer st id).2
  | .stop id => (stopServer st id).2
  | .command id text => (sendCommand st id text).2
  | .delete id => (deleteServer st id).2
  | .exit id code => procExit st id code

def applyEvents (st : Sys) (evs : List Event) : Sys :=
  evs.foldl applyEvent st

def isExitOf (id : String) : Event → Bool
  | .exit i _ => i == id
  | _ => false

/-- A path lying in the artifact (jar) directory: the directory itself or a
path strictly beneath it. -/
def insideJarDir (p : String) : Prop :=
  p = JAR_DIR ∨ strStarts (JAR_DIR ++ "/") p = true

instance (p : String) : Decidable (insideJarDir p) := by
  unfold insideJarDir
  infer_instance

/-- A plain path component: nonempty, not a dot component, no separator. -/
def normalSeg (s : String) : Prop :=
  s ≠ "" ∧ s ≠ "." ∧ s ≠ ".." ∧ '/' ∉ s.data

/- Concrete fixture states used by the witnesses and counterexamples. -/

/-- A registry record for a stopped instance named Alpha. -/
def recA : ServerRec :=
  { id := "alpha-ab0cd", name := "Alpha", port := 25565, maxMemoryMB := 2048,
    jar := "paper.jar", dir := "data/servers/alpha-ab0cd" }

/-- Base filesystem: data directories, one uploaded jar, one record. -/
def fsB : FS :=
  { files := [("data/jars/paper.jar", .text "JAR"),
              ("data/servers.json", .json [recA])],
    dirs := ["data", "data/jars", "data/servers", "data/servers/alpha-ab0cd"] }

/-- System with the Alpha instance stopped. -/
def stB : Sys := { fs := fsB, procMap := [], nextPid := 100 }

/-- A live process handle for the Alpha instance. -/
def procA : Proc :=
  { pid := 41, cmd := "java",
    args := ["-Xmx2048M", "-Xms512M", "-jar", "data/jars/paper.jar", "nogui"],
    cwd := "data/servers/alpha-ab0cd", stdinWrites := [],
    logFile := "data/servers/alpha-ab0cd/console.log" }

/-- System with the Alpha instance running. -/
def stLive : Sys := { fs := fsB, procMap := [("alpha-ab0cd", procA)], nextPid := 42 }

/-- Filesystem whose registry records Alpha but whose jar file is gone. -/
def fsNoJar : FS :=
  { files := [("data/servers.json", .json [recA])],
    dirs := ["data", "data/jars", "data/servers", "data/servers/alpha-ab0cd"] }

def stNoJar : Sys := { fs := fsNoJar, procMap := [], nextPid := 100 }

/-- Filesystem with no state file at all. -/
def fsFresh : FS := { files := [], dirs := ["data", "data/jars", "data/servers"] }

/-- Filesystem whose state file exists but does not parse. -/
def fsCorrupt : FS :=
  { files := [("data/servers.json", .corrupt)],
    dirs := ["data", "data/jars", "data/servers"] }

/-- A log of 3000 one-character lines. -/
def tailContent : String := joinLines (List.replicate 3000 "x")

/-- Filesystem where the Alpha instance has that 3000-line log. -/
def fsTail : FS :=
  { files := [("data/jars/paper.jar", .text "JAR"),
              ("data/servers.json", .json [recA]),
              ("data/servers/alpha-ab0cd/console.log", .text tailContent)],
    dirs := ["data", "data/jars", "data/servers", "data/servers/alpha-ab0cd"] }

def stTail : Sys := { fs := fsTail, procMap := [], nextPid := 100 }

/-- A log strictly larger than 1 MiB: one line "aaa" before the window and
a final window of exactly 1048576 bytes (the line "xx" followed by 524287
one-character lines: 3 + 524287 * 2 - 1 = 1048576). -/
def tailBig : String :=
  joinLines (["aaa"] ++ ("xx" :: List.replicate 524287 "x"))

/-- Filesystem where the Alpha instance has that over-1-MiB log. -/
def fsTailBig : FS :=
  { files := [("data/jars/paper.jar", .text "JAR"),
              ("data/servers.json", .json [recA]),
              ("data/servers/alpha-ab0cd/console.log", .text tailBig)],
    dirs := ["data", "data/jars", "data/servers", "data/servers/alpha-ab0cd"] }

def stTailBig : Sys := { fs := fsTailBig, procMap := [], nextPid := 100 }

/- Library of small facts about the filesystem model. -/

theorem FS.dirs_writeFile (fs : FS) (p : String) (d : FileData) :
    (fs.writeFile p d).dirs = fs.dirs := by
  unfold FS.writeFile
  split <;> rfl

theorem FS.files_fst_writeFile (fs : FS) (p : String) (d : FileData) :
    ((fs.writeFile p d).files.map Prod.fst = fs.files.map Prod.fst) ∨
    ((fs.writeFile p d).files.map Prod.fst = fs.files.map Prod.fst ++ [p]) := by
  unfold FS.writeFile
  split
  · left
    simp only [List.map_map]
    apply List.map_congr_left
    intro e _
    simp only [Function.comp_apply]
    split <;> rfl
  · right
    simp

theorem FS.readFileData_writeFile_self (fs : FS) (p : String) (d : FileData) :
    (fs.writeFile p d).readFileData p = some d := by
  unfold FS.writeFile FS.readFileData
  split
  · rename_i hany
    rw [List.find?_map]
    have hpred : ((fun e : String × FileData => e.1 == p) ∘
        (fun e : String × FileData => if e.1 == p then (e.1, d) else e)) =
        (fun e : String × FileData => e.1 == p) := by
      funext e
      simp only [Function.comp_apply]
      split <;> rfl
    rw [hpred]
    rw [List.any_eq_true] at hany
    obtain ⟨e, he, hep⟩ := hany
    have hsome : (fs.files.find? (fun e => e.1 == p)).isSome := by
      rw [List.find?_isSome]
      exact ⟨e, he, hep⟩
    obtain ⟨e', he'⟩ := Option.isSome_iff_exists.mp hsome
    rw [he']
    have hpe' := List.find?_some he'
    simp only [Option.map]
    rw [if_pos hpe']
  · rw [List.find?_append]
    have hnone : fs.files.find? (fun e => e.1 == p) = none := by
      rw [List.find?_eq_none]
      intro x hx
      rename_i hany
      intro hxp
      exact hany (List.any_eq_true.mpr ⟨x, hx, hxp⟩)
    rw [hnone]
    simp

theorem FS.readFileData_writeFile_of_ne (fs : FS) {p q : String} (d : FileData)
    (h : q ≠ p) : (fs.writeFile p d).readFileData q = fs.readFileData q := by
  unfold FS.writeFile FS.readFileData
  split
  · rw [List.find?_map]
    have hpred : ((fun e : String × FileData => e.1 == q) ∘
        (fun e : String × FileData => if e.1 == p then (e.1, d) else e)) =
        (fun e : String × FileData => e.1 == q) := by
      funext e
      simp only [Function.comp_apply]
      split <;> rfl
    rw [hpred]
    cases hf : fs.files.find? (fun e => e.1 == q) with
    | none => rfl
    | some e =>
      have he := List.find?_some hf
      have heq : e.1 = q := by simpa using he
      simp only [Option.map]
      rw [if_neg (by simp [heq, h])]
  · rw [List.find?_append]
    cases hf : fs.files.find? (fun e => e.1 == q) with
    | none =>
      simp only [Option.none_or]
      have hb : ((p, d).1 == q) = false := by
        rw [beq_eq_false_iff_ne]
        exact Ne.symm h
      simp [List.find?, hb]
    | some e => simp

theorem any_fst_eq (l : List (String × FileData)) (q : String) :
    (l.map Prod.fst).any (fun a => a == q) = l.any (fun e => e.1 == q) := by
  induction l with
  | nil => rfl
  | cons e t ih => simp only [List.map_cons, List.any_cons, ih]

theorem FS.existsPath_writeFile_of_ne (fs : FS) {p q : String} (d : FileData)
    (h : q ≠ p) : (fs.writeFile p d).existsPath q = fs.existsPath q := by
  unfold FS.existsPath
  rw [FS.dirs_writeFile]
  have hb : (p == q) = false := by
    rw [beq_eq_false_iff_ne]
    exact Ne.symm h
  rcases FS.files_fst_writeFile fs p d with hsame | happ
  · rw [← any_fst_eq, ← any_fst_eq fs.files, hsame]
  · rw [← any_fst_eq, ← any_fst_eq fs.files, happ]
    simp [hb]

theorem FS.existsPath_writeFile_self (fs : FS) (p : String) (d : FileData) :
    (fs.writeFile p d).existsPath p = true := by
  have hread := FS.readFileData_writeFile_self fs p d
  unfold FS.readFileData at hread
  unfold FS.existsPath
  cases hf : (fs.writeFile p d).files.find? (fun e => e.1 == p) with
  | none => rw [hf] at hread; simp at hread
  | some e =>
    have hmem := List.mem_of_find?_eq_some hf
    have hpe := List.find?_some hf
    simp only [Bool.or_eq_true, List.any_eq_true]
    exact Or.inl ⟨e, hmem, hpe⟩

theorem FS.readFileText_writeFile_self (fs : FS) (p : String) (s : String) :
    (fs.writeFile p (.text s)).readFileText p = some s := by
  unfold FS.readFileText
  rw [FS.readFileData_writeFile_self]

theorem FS.readFileText_appendText (fs : FS) (p : String) (s : String) :
    (fs.appendText p s).readFileText p =
      some (((fs.readFileText p).getD "") ++ s) := by
  unfold FS.appendText
  cases hf : fs.readFileText p with
  | none => simp [FS.readFileText_writeFile_self]
  | some c => simp [FS.readFileText_writeFile_self]

theorem FS.dirs_mkdirp (fs : FS) (p : String) :
    (fs.mkdirp p).dirs = fs.dirs ∨ (fs.mkdirp p).dirs = fs.dirs ++ [p] := by
  unfold FS.mkdirp
  split
  · left; rfl
  · right; rfl

theorem FS.files_mkdirp (fs : FS) (p : String) :
    (fs.mkdirp p).files = fs.files := by
  unfold FS.mkdirp
  split <;> rfl

theorem FS.readFileData_mkdirp (fs : FS) (p q : String) :
    (fs.mkdirp p).readFileData q = fs.readFileData q := by
  unfold FS.readFileData
  rw [FS.files_mkdirp]

theorem FS.existsPath_mkdirp_of_ne (fs : FS) {p q : String} (h : q ≠ p) :
    (fs.mkdirp p).existsPath q = fs.existsPath q := by
  unfold FS.existsPath
  rw [FS.files_mkdirp]
  have hb : (p == q) = false := by
    rw [beq_eq_false_iff_ne]
    exact Ne.symm h
  rcases FS.dirs_mkdirp fs p with hd | hd <;> rw [hd]
  simp [hb]

theorem FS.mem_dirs_mkdirp (fs : FS) (p : String) : p ∈ (fs.mkdirp p).dirs := by
  unfold FS.mkdirp
  split
  · rename_i hany
    rw [List.any_eq_true] at hany
    obtain ⟨d, hd, hdp⟩ := hany
    rw [beq_iff_eq] at hdp
    exact hdp ▸ hd
  · simp

theorem loadServers_writeFile_of_ne (fs : FS) {p : String} (d : FileData)
    (h : p ≠ STATE_FILE) : loadServers (fs.writeFile p d) = loadServers fs := by
  unfold loadServers
  rw [FS.existsPath_writeFile_of_ne fs d (Ne.symm h),
      FS.readFileData_writeFile_of_ne fs d (Ne.symm h)]

theorem loadServers_mkdirp_of_ne (fs : FS) {p : String} (h : p ≠ STATE_FILE) :
    loadServers (fs.mkdirp p) = loadServers fs := by
  unfold loadServers
  rw [FS.existsPath_mkdirp_of_ne fs (Ne.symm h), FS.readFileData_mkdirp]

theorem loadServers_saveServers (fs : FS) (l : List ServerRec) :
    loadServers (saveServers fs l) = l := by
  unfold loadServers saveServers
  rw [FS.existsPath_writeFile_self, FS.readFileData_writeFile_self]
  rfl

/- Facts about the live-process mapping. -/

theorem any_key_map_preserve (m : List (String × Proc))
    (u : String × Proc → String × Proc) (hu : ∀ e, (u e).1 = e.1) (i : String) :
    (m.map u).any (fun e => e.1 == i) = m.any (fun e => e.1 == i) := by
  induction m with
  | nil => rfl
  | cons e t ih => simp only [List.map_cons, List.any_cons, ih, hu]

theorem keys_writeStdin (st : Sys) (id line : String) :
    (writeStdin st id line).procMap.map Prod.fst = st.procMap.map Prod.fst := by
  unfold writeStdin
  simp only [List.map_map]
  apply List.map_congr_left
  intro e _
  simp only [Function.comp_apply]
  split <;> rfl

theorem fs_writeStdin (st : Sys) (id line : String) :
    (writeStdin st id line).fs = st.fs := rfl

theorem hasLive_writeStdin (st : Sys) (id line i : String) :
    (writeStdin st id line).hasLive i = st.hasLive i := by
  unfold Sys.hasLive writeStdin
  exact any_key_map_preserve _ _ (fun e => by simp only; split <;> rfl) i

theorem lookupProc_writeStdin_self (st : Sys) (id line : String) (p : Proc)
    (h : lookupProc st.procMap id = some p) :
    lookupProc (writeStdin st id line).procMap id =
      some { p with stdinWrites := p.stdinWrites ++ [line] } := by
  unfold lookupProc at h ⊢
  unfold writeStdin
  simp only
  rw [List.find?_map]
  have hpred : ((fun e : String × Proc => e.1 == id) ∘ (fun e : String × Proc =>
      if e.1 == id then
        (e.1, { e.2 with stdinWrites := e.2.stdinWrites ++ [line] })
      else e)) = (fun e : String × Proc => e.1 == id) := by
    funext e
    simp only [Function.comp_apply]
    split <;> rfl
  rw [hpred]
  cases hf : st.procMap.find? (fun e => e.1 == id) with
  | none => rw [hf] at h; simp at h
  | some e =>
    rw [hf] at h
    simp only [Option.map] at h ⊢
    have hpe := List.find?_some hf
    rw [if_pos hpe]
    rw [Option.some_inj] at h
    rw [h]

theorem lookupProc_eq_none_iff (m : List (String × Proc)) (id : String) :
    lookupProc m id = none ↔ (m.any (fun e => e.1 == id)) = false := by
  unfold lookupProc
  constructor
  · intro h
    cases hf : m.find? (fun e => e.1 == id) with
    | none =>
      rw [Bool.eq_false_iff]
      intro hany
      rw [List.any_eq_true] at hany
      obtain ⟨e, he, hep⟩ := hany
      have : (m.find? (fun e => e.1 == id)).isSome := by
        rw [List.find?_isSome]
        exact ⟨e, he, hep⟩
      rw [hf] at this
      simp at this
    | some e => rw [hf] at h; simp at h
  · intro h
    cases hf : m.find? (fun e => e.1 == id) with
    | none => rfl
    | some e =>
      have hmem := List.mem_of_find?_eq_some hf
      have hpe := List.find?_some hf
      have : m.any (fun e => e.1 == id) = true := List.any_eq_true.mpr ⟨e, hmem, hpe⟩
      rw [this] at h
      simp at h

/- Claim theorems. -/

/-- C9: loading the persisted registry never escalates an error: when the
state file is absent `loadServers` yields the empty registry, and when the
file exists but its contents fail to parse it also yields the empty
registry, so every registry read (such as `getServer`) behaves as if the
registry were empty in both cases. -/
theorem loadServers_never_escalates (fs : FS) :
    (fs.existsPath STATE_FILE = false →
      loadServers fs = [] ∧ ∀ id, getServer fs id = none) ∧
    (fs.readFileData STATE_FILE = some .corrupt →
      loadServers fs = [] ∧ ∀ id, getServer fs id = none) := by
  constructor
  · intro h
    have hl : loadServers fs = [] := by
      unfold loadServers
      rw [h]
      rfl
    refine ⟨hl, fun id => ?_⟩
    unfold getServer
    rw [hl]
    rfl
  · intro h
    have hl : loadServers fs = [] := by
      unfold loadServers
      rw [h]
      split <;> rfl
    refine ⟨hl, fun id => ?_⟩
    unfold getServer
    rw [hl]
    rfl

theorem loadServers_never_escalates_witness :
    (loadServers fsFresh = [] ∧ getServer fsFresh "alpha-ab0cd" = none) ∧
    (loadServers fsCorrupt = [] ∧ getServer fsCorrupt "alpha-ab0cd" = none) :=
  ⟨⟨((loadServers_never_escalates fsFresh).1 (by decide)).1,
    ((loadServers_never_escalates fsFresh).1 (by decide)).2 "alpha-ab0cd"⟩,
   ⟨((loadServers_never_escalates fsCorrupt).2 (by decide)).1,
    ((loadServers_never_escalates fsCorrupt).2 (by decide)).2 "alpha-ab0cd"⟩⟩

/-- C4 (amended): sendCommand fails with InvalidState when the id has no
live mapping; it fails with InvalidArgument only when the text is the empty
string — the emptiness check precedes trimming, so whitespace-only text is
accepted; any other text is trimmed, a single newline appended, and the
result written to the process's input stream, returning success. -/
theorem sendCommand_contract (st : Sys) (id text : String) :
    (lookupProc st.procMap id = none →
      sendCommand st id text = (.error .InvalidState, st)) ∧
    (∀ p, lookupProc st.procMap id = some p → text = "" →
      sendCommand st id text = (.error .InvalidArgument, st)) ∧
    (∀ p, lookupProc st.procMap id = some p → text ≠ "" →
      (sendCommand st id text).1 = .ok () ∧
      (sendCommand st id text).2.fs = st.fs ∧
      lookupProc (sendCommand st id text).2.procMap id =
        some { p with stdinWrites := p.stdinWrites ++ [trimStr text ++ "\n"] }) := by
  refine ⟨?_, ?_, ?_⟩
  · intro h
    unfold sendCommand
    rw [h]
  · intro p hf he
    unfold sendCommand
    rw [hf, if_pos he]
  · intro p hf hne
    unfold sendCommand
    rw [hf, if_neg hne]
    exact ⟨rfl, rfl, lookupProc_writeStdin_self st id (trimStr text ++ "\n") p hf⟩

theorem sendCommand_contract_witness :
    sendCommand stB "alpha-ab0cd" "say hi" = (.error .InvalidState, stB) ∧
    sendCommand stLive "alpha-ab0cd" "" = (.error .InvalidArgument, stLive) ∧
    ((sendCommand stLive "alpha-ab0cd" "say hi ").1 = .ok () ∧
     (sendCommand stLive "alpha-ab0cd" "say hi ").2.fs = stLive.fs ∧
     lookupProc (sendCommand stLive "alpha-ab0cd" "say hi ").2.procMap
       "alpha-ab0cd" = some { procA with
         stdinWrites := procA.stdinWrites ++ [trimStr "say hi " ++ "\n"] }) :=
  ⟨(sendCommand_contract stB "alpha-ab0cd" "say hi").1 (by decide),
   (sendCommand_contract stLive "alpha-ab0cd" "").2.1 procA (by decide) rfl,
   (sendCommand_contract stLive "alpha-ab0cd" "say hi ").2.2 procA (by decide)
     (by decide)⟩

/-- C4 counterexample: whitespace-only command text is NOT rejected with
InvalidArgument although it is empty after trimming — the code only checks
the untrimmed string, accepts the call and writes a bare newline. -/
theorem sendCommand_whitespace_accepted :
    trimStr " " = "" ∧
    (sendCommand stLive "alpha-ab0cd" " ").1 ≠ .error .InvalidArgument ∧
    (sendCommand stLive "alpha-ab0cd" " ").1 = .ok () ∧
    lookupProc (sendCommand stLive "alpha-ab0cd" " ").2.procMap "alpha-ab0cd" =
      some { procA with stdinWrites := ["\n"] } := by
  decide

/-- C3: stop on an instance with no live mapping fails with InvalidState;
on a running instance it writes exactly the literal line "stop" followed by
a newline to the process's input stream and returns success without touching
the filesystem or the live mapping (no removal, no kill); removal happens
only in the exit observer `procExit`, which deletes the live mapping and
appends the exit-code trailer line to the log file. -/
theorem stopServer_contract (st : Sys) (id : String) :
    (lookupProc st.procMap id = none →
      stopServer st id = (.error .InvalidState, st)) ∧
    (∀ p, lookupProc st.procMap id = some p →
      (stopServer st id).1 = .ok () ∧
      (stopServer st id).2.fs = st.fs ∧
      (stopServer st id).2.procMap.map Prod.fst = st.procMap.map Prod.fst ∧
      lookupProc (stopServer st id).2.procMap id =
        some { p with stdinWrites := p.stdinWrites ++ ["stop\n"] }) ∧
    (∀ p code, lookupProc st.procMap id = some p →
      (procExit st id code).procMap =
        st.procMap.filter (fun e => !(e.1 == id)) ∧
      (procExit st id code).fs.readFileText p.logFile =
        some (((st.fs.readFileText p.logFile).getD "") ++ exitTrailer code)) := by
  refine ⟨?_, ?_, ?_⟩
  · intro h
    unfold stopServer
    rw [h]
  · intro p hf
    unfold stopServer
    rw [hf]
    exact ⟨rfl, rfl, keys_writeStdin st id "stop\n",
      lookupProc_writeStdin_self st id "stop\n" p hf⟩
  · intro p code hf
    unfold procExit
    rw [hf]
    exact ⟨rfl, FS.readFileText_appendText st.fs p.logFile (exitTrailer code)⟩

theorem stopServer_contract_witness :
    stopServer stB "alpha-ab0cd" = (.error .InvalidState, stB) ∧
    ((stopServer stLive "alpha-ab0cd").1 = .ok () ∧
     (stopServer stLive "alpha-ab0cd").2.fs = stLive.fs ∧
     (stopServer stLive "alpha-ab0cd").2.procMap.map Prod.fst =
       stLive.procMap.map Prod.fst ∧
     lookupProc (stopServer stLive "alpha-ab0cd").2.procMap "alpha-ab0cd" =
       some { procA with stdinWrites := procA.stdinWrites ++ ["stop\n"] }) ∧
    ((procExit stLive "alpha-ab0cd" 0).procMap =
       stLive.procMap.filter (fun e => !(e.1 == "alpha-ab0cd")) ∧
     (procExit stLive "alpha-ab0cd" 0).fs.readFileText procA.logFile =
       some (((stLive.fs.readFileText procA.logFile).getD "") ++
         exitTrailer 0)) :=
  ⟨(stopServer_contract stB "alpha-ab0cd").1 (by decide),
   (stopServer_contract stLive "alpha-ab0cd").2.1 procA (by decide),
   (stopServer_contract stLive "alpha-ab0cd").2.2 procA 0 (by decide)⟩

/-- C1: start(id) fails with Conflict when the id already has a live
mapping; otherwise with NotFound when the registry has no record; otherwise
with InvalidState when the referenced jar file is missing on disk — checked
in that order, each failing call returning the state unchanged (no spawn,
no live-mapping change).  On success it conses the id onto the live mapping
and returns the spawned process's identifier. -/
theorem startServer_contract (st : Sys) (id : String) :
    (st.hasLive id = true → startServer st id = (.error .Conflict, st)) ∧
    (st.hasLive id = false → getServer st.fs id = none →
      startServer st id = (.error .NotFound, st)) ∧
    (∀ s, st.hasLive id = false → getServer st.fs id = some s →
      st.fs.existsPath (pathJoin JAR_DIR s.jar) = false →
      startServer st id = (.error .InvalidState, st)) ∧
    (∀ s, st.hasLive id = false → getServer st.fs id = some s →
      st.fs.existsPath (pathJoin JAR_DIR s.jar) = true →
      ∃ p : Proc, (startServer st id).1 = .ok p.pid ∧
        (startServer st id).2.procMap = (id, p) :: st.procMap ∧
        lookupProc (startServer st id).2.procMap id = some p) := by
  refine ⟨?_, ?_, ?_, ?_⟩
  · intro h
    unfold startServer
    rw [if_pos h]
  · intro h hget
    unfold startServer
    rw [if_neg (by rw [h]; exact Bool.false_ne_true), hget]
  · intro s h hget hjar
    unfold startServer
    rw [if_neg (by rw [h]; exact Bool.false_ne_true), hget]
    simp only [hjar]
    rfl
  · intro s h hget hjar
    unfold startServer
    rw [if_neg (by rw [h]; exact Bool.false_ne_true), hget]
    simp only [hjar, Bool.not_true, if_neg Bool.false_ne_true]
    refine ⟨_, rfl, rfl, ?_⟩
    unfold lookupProc
    simp [List.find?_cons]

theorem startServer_contract_witness :
    startServer stLive "alpha-ab0cd" = (.error .Conflict, stLive) ∧
    startServer stB "zzz" = (.error .NotFound, stB) ∧
    startServer stNoJar "alpha-ab0cd" = (.error .InvalidState, stNoJar) ∧
    (∃ p : Proc, (startServer stB "alpha-ab0cd").1 = .ok p.pid ∧
      (startServer stB "alpha-ab0cd").2.procMap =
        ("alpha-ab0cd", p) :: stB.procMap ∧
      lookupProc (startServer stB "alpha-ab0cd").2.procMap "alpha-ab0cd" =
        some p) :=
  ⟨(startServer_contract stLive "alpha-ab0cd").1 (by decide),
   (startServer_contract stB "zzz").2.1 (by decide) (by decide),
   (startServer_contract stNoJar "alpha-ab0cd").2.2.1 recA (by decide)
     (by decide) (by decide),
   (startServer_contract stB "alpha-ab0cd").2.2.2 recA (by decide) (by decide)
     (by decide)⟩

/-- C8: a successful start on a record with nonzero memory limit M launches
with arguments `-XmxMM -Xms(min 512 M)M -jar <jarPath> nogui` — maximum
heap M, minimum heap min(512, M) capped at the fixed ceiling 512 — and the
process's working directory is the instance directory. -/
theorem startServer_args (st : Sys) (id : String) (s : ServerRec)
    (h1 : st.hasLive id = false) (h2 : getServer st.fs id = some s)
    (h3 : st.fs.existsPath (pathJoin JAR_DIR s.jar) = true)
    (h4 : s.maxMemoryMB ≠ 0) :
    ∃ p : Proc, (startServer st id).1 = .ok p.pid ∧
      lookupProc (startServer st id).2.procMap id = some p ∧
      p.cmd = "java" ∧
      p.args = ["-Xmx" ++ toString s.maxMemoryMB ++ "M",
                "-Xms" ++ toString (min 512 s.maxMemoryMB) ++ "M",
                "-jar", pathJoin JAR_DIR s.jar, "nogui"] ∧
      p.cwd = s.dir := by
  unfold startServer
  rw [if_neg (by rw [h1]; exact Bool.false_ne_true), h2]
  simp only [h3, Bool.not_true, if_neg Bool.false_ne_true, if_pos h4]
  refine ⟨{ pid := st.nextPid, cmd := "java",
            args := ["-Xmx" ++ toString s.maxMemoryMB ++ "M",
                     "-Xms" ++ toString (min 512 s.maxMemoryMB) ++ "M"] ++
                    ["-jar", pathJoin JAR_DIR s.jar, "nogui"],
            cwd := s.dir, stdinWrites := [],
            logFile := pathJoin s.dir "console.log" }, rfl, ?_, rfl, rfl, rfl⟩
  unfold lookupProc
  simp [List.find?_cons]

theorem procMap_deleteServer (st : Sys) (id : String) :
    (deleteServer st id).2.procMap = st.procMap := by
  simp only [deleteServer]
  cases hf : (loadServers st.fs).find? (fun r => r.id == id) with
  | none => rfl
  | some s =>
    by_cases hl : st.hasLive id = true
    · simp [hl]
    · simp [hl]

theorem procMap_keys_start (st : Sys) (id : String) :
    (startServer st id).2.procMap = st.procMap ∨
    (st.hasLive id = false ∧
      ∃ p, (startServer st id).2.procMap = (id, p) :: st.procMap) := by
  by_cases hl : st.hasLive id = true
  · left
    unfold startServer
    rw [if_pos hl]
  · cases hg : getServer st.fs id with
    | none =>
      left
      unfold startServer
      rw [if_neg hl, hg]
    | some s =>
      by_cases hj : st.fs.existsPath (pathJoin JAR_DIR s.jar) = true
      · right
        refine ⟨by rw [Bool.not_eq_true] at hl; exact hl, ?_⟩
        unfold startServer
        rw [if_neg hl, hg]
        simp only [hj, Bool.not_true, if_neg Bool.false_ne_true]
        exact ⟨_, rfl⟩
      · left
        rw [Bool.not_eq_true] at hj
        unfold startServer
        rw [if_neg hl, hg]
        simp only [hj, Bool.not_false, if_pos]

theorem procExit_procMap_cases (st : Sys) (id : String) (code : Int) :
    (procExit st id code).procMap = st.procMap ∨
    (procExit st id code).procMap =
      st.procMap.filter (fun e => !(e.1 == id)) := by
  unfold procExit
  cases hf : lookupProc st.procMap id with
  | none => left; rfl
  | some p => right; rfl

theorem keys_stopServer (st : Sys) (id : String) :
    (stopServer st id).2.procMap.map Prod.fst = st.procMap.map Prod.fst := by
  unfold stopServer
  split
  · rfl
  · exact keys_writeStdin st id _

theorem keys_sendCommand (st : Sys) (id text : String) :
    (sendCommand st id text).2.procMap.map Prod.fst =
      st.procMap.map Prod.fst := by
  unfold sendCommand
  split
  · rfl
  · split
    · rfl
    · exact keys_writeStdin st id _

theorem hasLive_false_not_mem (st : Sys) (id : String)
    (hl : st.hasLive id = false) : id ∉ st.procMap.map Prod.fst := by
  intro hmem
  rw [List.mem_map] at hmem
  obtain ⟨e, he, hfst⟩ := hmem
  unfold Sys.hasLive at hl
  rw [Bool.eq_false_iff] at hl
  exact hl (List.any_eq_true.mpr ⟨e, he, by rw [beq_iff_eq]; exact hfst⟩)

theorem keysNodup_applyEvent (st : Sys) (ev : Event)
    (h : (st.procMap.map Prod.fst).Nodup) :
    (((applyEvent st ev).procMap).map Prod.fst).Nodup := by
  cases ev with
  | start id =>
    show (((startServer st id).2.procMap).map Prod.fst).Nodup
    rcases procMap_keys_start st id with he | ⟨hl, p, he⟩
    · rw [he]; exact h
    · rw [he, List.map_cons]
      exact List.Nodup.cons (hasLive_false_not_mem st id hl) h
  | stop id =>
    show (((stopServer st id).2.procMap).map Prod.fst).Nodup
    rw [keys_stopServer]
    exact h
  | command id text =>
    show (((sendCommand st id text).2.procMap).map Prod.fst).Nodup
    rw [keys_sendCommand]
    exact h
  | delete id =>
    show (((deleteServer st id).2.procMap).map Prod.fst).Nodup
    rw [procMap_deleteServer]
    exact h
  | exit id code =>
    show (((procExit st id code).procMap).map Prod.fst).Nodup
    rcases procExit_procMap_cases st id code with he | he
    · rw [he]; exact h
    · rw [he]
      exact h.sublist (List.Sublist.map Prod.fst (List.filter_sublist _))

theorem hasLive_stopServer (st : Sys) (id i : String) :
    (stopServer st id).2.hasLive i = st.hasLive i := by
  unfold stopServer
  split
  · rfl
  · exact hasLive_writeStdin st id _ i

theorem hasLive_sendCommand (st : Sys) (id text i : String) :
    (sendCommand st id text).2.hasLive i = st.hasLive i := by
  unfold sendCommand
  split
  · rfl
  · split
    · rfl
    · exact hasLive_writeStdin st id _ i

theorem hasLive_true_applyEvent (st : Sys) (id : String) (ev : Event)
    (hev : isExitOf id ev = false) (h : st.hasLive id = true) :
    (applyEvent st ev).hasLive id = true := by
  cases ev with
  | start i =>
    show (startServer st i).2.hasLive id = true
    rcases procMap_keys_start st i with he | ⟨hl, p, he⟩
    · unfold Sys.hasLive
      rw [he]
      exact h
    · unfold Sys.hasLive
      rw [he, List.any_cons]
      unfold Sys.hasLive at h
      rw [h]
      simp
  | stop i =>
    show (stopServer st i).2.hasLive id = true
    rw [hasLive_stopServer]
    exact h
  | command i text =>
    show (sendCommand st i text).2.hasLive id = true
    rw [hasLive_sendCommand]
    exact h
  | delete i =>
    show (deleteServer st i).2.hasLive id = true
    unfold Sys.hasLive
    rw [procMap_deleteServer]
    exact h
  | exit i code =>
    show (procExit st i code).hasLive id = true
    have hne : (i == id) = false := hev
    rcases procExit_procMap_cases st i code with he | he
    · unfold Sys.hasLive
      rw [he]
      exact h
    · unfold Sys.hasLive
      rw [he]
      unfold Sys.hasLive at h
      rw [List.any_eq_true] at h ⊢
      obtain ⟨e, he', hpe⟩ := h
      refine ⟨e, List.mem_filter.mpr ⟨he', ?_⟩, hpe⟩
      have hid : e.1 = id := by rw [← beq_iff_eq]; exact hpe
      rw [hid]
      rw [beq_eq_false_iff_ne] at hne
      simp only [Bool.not_eq_true']
      rw [beq_eq_false_iff_ne]
      exact fun hh => hne hh.symm

theorem keysNodup_applyEvents (st : Sys) (evs : List Event)
    (h : (st.procMap.map Prod.fst).Nodup) :
    (((applyEvents st evs).procMap).map Prod.fst).Nodup := by
  induction evs generalizing st with
  | nil => exact h
  | cons ev t ih => exact ih _ (keysNodup_applyEvent st ev h)

theorem hasLive_applyEvents (st : Sys) (id : String) (evs : List Event)
    (hevs : ∀ ev ∈ evs, isExitOf id ev = false) (h : st.hasLive id = true) :
    (applyEvents st evs).hasLive id = true := by
  induction evs generalizing st with
  | nil => exact h
  | cons ev t ih =>
    exact ih _ (fun e he => hevs e (List.mem_cons_of_mem ev he))
      (hasLive_true_applyEvent st id ev (hevs ev (List.mem_cons_self ev t)) h)

theorem startServer_ok_insert (st : Sys) (id : String) (pid : Nat)
    (h : (startServer st id).1 = .ok pid) :
    st.hasLive id = false ∧
    ∃ p : Proc, (startServer st id).2.procMap = (id, p) :: st.procMap := by
  by_cases hl : st.hasLive id = true
  · exfalso
    unfold startServer at h
    rw [if_pos hl] at h
    simp at h
  · cases hg : getServer st.fs id with
    | none =>
      exfalso
      unfold startServer at h
      rw [if_neg hl, hg] at h
      simp at h
    | some s =>
      by_cases hj : st.fs.existsPath (pathJoin JAR_DIR s.jar) = true
      · refine ⟨by rw [Bool.not_eq_true] at hl; exact hl, ?_⟩
        unfold startServer
        rw [if_neg hl, hg]
        simp only [hj, Bool.not_true, if_neg Bool.false_ne_true]
        exact ⟨_, rfl⟩
      · exfalso
        rw [Bool.not_eq_true] at hj
        unfold startServer at h
        rw [if_neg hl, hg] at h
        simp [hj] at h

/-- C2: at most one live process per instance id — in every state reachable
by start, stop, sendCommand, delete and process-exit events the live
mapping's keys stay duplicate-free; and once a start(id) has succeeded, any
later start(id) with no exit event for that id in between fails with
Conflict. -/
theorem liveMapping_invariant :
    (∀ (st : Sys) (evs : List Event), (st.procMap.map Prod.fst).Nodup →
      (((applyEvents st evs).procMap).map Prod.fst).Nodup) ∧
    (∀ (st : Sys) (id : String) (pid : Nat) (evs : List Event),
      (startServer st id).1 = .ok pid →
      (∀ ev ∈ evs, isExitOf id ev = false) →
      (startServer (applyEvents (startServer st id).2 evs) id).1 =
        .error .Conflict) := by
  constructor
  · exact fun st evs h => keysNodup_applyEvents st evs h
  · intro st id pid evs hok hevs
    obtain ⟨-, p, hins⟩ := startServer_ok_insert st id pid hok
    have h1 : (startServer st id).2.hasLive id = true := by
      unfold Sys.hasLive
      rw [hins, List.any_cons]
      simp
    have h2 := hasLive_applyEvents _ id evs hevs h1
    have hc : startServer (applyEvents (startServer st id).2 evs) id =
        (.error .Conflict, applyEvents (startServer st id).2 evs) := by
      generalize applyEvents (startServer st id).2 evs = st2 at h2 ⊢
      unfold startServer
      rw [if_pos h2]
    rw [hc]

theorem liveMapping_invariant_witness :
    (((applyEvents stB [.start "alpha-ab0cd"]).procMap).map Prod.fst).Nodup ∧
    (startServer (applyEvents (startServer stB "alpha-ab0cd").2
      [.stop "alpha-ab0cd"]) "alpha-ab0cd").1 = .error .Conflict :=
  ⟨liveMapping_invariant.1 stB [.start "alpha-ab0cd"] (by decide),
   liveMapping_invariant.2 stB "alpha-ab0cd" 100 [.stop "alpha-ab0cd"]
     (by decide) (by decide)⟩

/- Path computation lemmas. -/

theorem splitChar_cons (c d : Char) (t : List Char) :
    splitChar c (d :: t) =
      if d = c then [] :: splitChar c t
      else
        match splitChar c t with
        | [] => [[d]]
        | g :: gs => (d :: g) :: gs := rfl

theorem splitChar_of_not_mem (c : Char) (l : List Char) (h : c ∉ l) :
    splitChar c l = [l] := by
  induction l with
  | nil => rfl
  | cons d t ih =>
    have hd : d ≠ c := fun hh => h (hh ▸ List.mem_cons_self d t)
    have ht : c ∉ t := fun hh => h (List.mem_cons_of_mem d hh)
    rw [splitChar_cons, if_neg hd, ih ht]

theorem splitChar_sep (c : Char) (l1 l2 : List Char) (h : c ∉ l1) :
    splitChar c (l1 ++ c :: l2) = l1 :: splitChar c l2 := by
  induction l1 with
  | nil =>
    show splitChar c (c :: l2) = [] :: splitChar c l2
    rw [splitChar_cons, if_pos rfl]
  | cons d t ih =>
    have hd : d ≠ c := fun hh => h (hh ▸ List.mem_cons_self d t)
    have ht : c ∉ t := fun hh => h (List.mem_cons_of_mem d hh)
    show splitChar c (d :: (t ++ c :: l2)) = (d :: t) :: splitChar c l2
    rw [splitChar_cons, if_neg hd, ih ht]

theorem normSegs_cons (acc : List String) (seg : String) (rest : List String) :
    normSegs acc (seg :: rest) =
      if seg = "" ∨ seg = "." then normSegs acc rest
      else if seg = ".." then
        match acc with
        | [] => normSegs [".."] rest
        | top :: below =>
          if top = ".." then normSegs (".." :: acc) rest
          else normSegs below rest
      else normSegs (seg :: acc) rest := rfl

theorem normSegs_nil (acc : List String) : normSegs acc [] = acc.reverse := rfl

theorem normSegs_push (acc : List String) (seg : String) (rest : List String)
    (h1 : ¬(seg = "" ∨ seg = ".")) (h2 : seg ≠ "..") :
    normSegs acc (seg :: rest) = normSegs (seg :: acc) rest := by
  rw [normSegs_cons, if_neg h1, if_neg h2]

theorem pathJoin_jars (b : String) (hb : normalSeg b) :
    pathJoin JAR_DIR b = "data/jars/" ++ b := by
  obtain ⟨h1, h2, h3, h4⟩ := hb
  unfold pathJoin JAR_DIR
  rw [show splitChar '/' "data/jars".data = ["data".data, "jars".data] from rfl,
      splitChar_of_not_mem '/' b.data h4]
  show joinSegs (normSegs [] ["data", "jars", b]) = "data/jars/" ++ b
  rw [normSegs_push _ _ _ (by decide) (by decide),
      normSegs_push _ _ _ (by decide) (by decide),
      normSegs_push _ _ _ (by simp [h1, h2]) h3, normSegs_nil]
  show "data" ++ "/" ++ ("jars" ++ "/" ++ b) = "data/jars/" ++ b
  rw [← String.append_assoc, ← String.append_assoc]
  rfl

theorem pathJoin_servers (b : String) (hb : normalSeg b) :
    pathJoin SERVERS_DIR b = "data/servers/" ++ b := by
  obtain ⟨h1, h2, h3, h4⟩ := hb
  unfold pathJoin SERVERS_DIR
  rw [show splitChar '/' "data/servers".data = ["data".data, "servers".data]
        from rfl,
      splitChar_of_not_mem '/' b.data h4]
  show joinSegs (normSegs [] ["data", "servers", b]) = "data/servers/" ++ b
  rw [normSegs_push _ _ _ (by decide) (by decide),
      normSegs_push _ _ _ (by decide) (by decide),
      normSegs_push _ _ _ (by simp [h1, h2]) h3, normSegs_nil]
  show "data" ++ "/" ++ ("servers" ++ "/" ++ b) = "data/servers/" ++ b
  rw [← String.append_assoc, ← String.append_assoc]
  rfl

theorem pathJoin_under_servers (id f : String) (hid : normalSeg id)
    (hf : normalSeg f) :
    pathJoin ("data/servers/" ++ id) f = ("data/servers/" ++ id) ++ "/" ++ f := by
  obtain ⟨hi1, hi2, hi3, hi4⟩ := hid
  obtain ⟨hf1, hf2, hf3, hf4⟩ := hf
  unfold pathJoin
  have hdata : ("data/servers/" ++ id).data =
      "data".data ++ '/' :: ("servers".data ++ '/' :: id.data) := by
    rw [String.data_append]
    rfl
  rw [hdata, splitChar_sep '/' "data".data _ (by decide),
      splitChar_sep '/' "servers".data _ (by decide),
      splitChar_of_not_mem '/' id.data hi4,
      splitChar_of_not_mem '/' f.data hf4]
  show joinSegs (normSegs [] ["data", "servers", id, f]) =
    ("data/servers/" ++ id) ++ "/" ++ f
  rw [normSegs_push _ _ _ (by decide) (by decide),
      normSegs_push _ _ _ (by decide) (by decide),
      normSegs_push _ _ _ (by simp [hi1, hi2]) hi3,
      normSegs_push _ _ _ (by simp [hf1, hf2]) hf3, normSegs_nil]
  show "data" ++ "/" ++ ("servers" ++ "/" ++ (id ++ "/" ++ f)) =
    ("data/servers/" ++ id) ++ "/" ++ f
  rw [← String.append_assoc, ← String.append_assoc, ← String.append_assoc,
      ← String.append_assoc]
  have : ("data" ++ "/" ++ "servers" ++ "/") ++ id =
      "data/servers/" ++ id := rfl
  rw [this]

theorem isPrefixOf_append_self (l t : List Char) : l.isPrefixOf (l ++ t) = true := by
  simp [List.isPrefixOf_iff_prefix]

theorem strStarts_self_append (pre t : String) :
    strStarts pre (pre ++ t) = true := by
  unfold strStarts
  rw [String.data_append]
  exact isPrefixOf_append_self pre.data t.data

theorem strStarts_dirservers_state (s : String) :
    strStarts ("data/servers/" ++ s) STATE_FILE = false := by
  unfold strStarts STATE_FILE
  rw [String.data_append]
  rw [Bool.eq_false_iff]
  intro hpre
  rw [List.isPrefixOf_iff_prefix] at hpre
  have h2 : "data/servers/".data <+: "data/servers.json".data :=
    List.IsPrefix.trans (List.prefix_append _ _) hpre
  rw [← List.isPrefixOf_iff_prefix] at h2
  exact absurd h2 (by decide)

theorem dirservers_ne_state (s : String) :
    ("data/servers/" ++ s) ≠ STATE_FILE := by
  intro h
  have hd := congrArg String.data h
  rw [String.data_append] at hd
  have hpre : "data/servers/".data <+: STATE_FILE.data := ⟨s.data, hd⟩
  rw [← List.isPrefixOf_iff_prefix] at hpre
  exact absurd hpre (by decide)

theorem ne_append_nonempty (a t : String) (h : t.data ≠ []) : a ≠ a ++ t := by
  intro he
  have hlen := congrArg (fun s : String => s.data.length) he
  simp only [String.data_append, List.length_append] at hlen
  have : t.data.length = 0 := by omega
  exact h (List.length_eq_zero.mp this)

theorem append_right_ne (a : String) {x y : String} (h : x ≠ y) :
    a ++ x ≠ a ++ y := by
  intro he
  have hd := congrArg String.data he
  rw [String.data_append, String.data_append] at hd
  exact h (String.ext (List.append_cancel_left hd))

/- Filesystem facts for delete and create. -/

theorem FS.not_mem_dirs_rmRec (fs : FS) (p : String) :
    p ∉ (fs.rmRec p).dirs := by
  unfold FS.rmRec
  intro hmem
  rw [List.mem_filter] at hmem
  have := hmem.2
  simp at this

theorem FS.filesUnder_rmRec_self (fs : FS) (p : String) :
    (fs.rmRec p).filesUnder p = [] := by
  unfold FS.filesUnder FS.rmRec
  rw [List.filter_eq_nil_iff]
  intro q hq
  rw [List.mem_map] at hq
  obtain ⟨e, he, hfst⟩ := hq
  rw [List.mem_filter] at he
  have h2 := he.2
  rw [Bool.not_eq_true', Bool.or_eq_false_iff] at h2
  rw [← hfst]
  rw [h2.2]
  simp

theorem FS.filesUnder_writeFile_of_not_under (fs : FS) (p : String)
    (d : FileData) (dir : String) (h : strStarts (dir ++ "/") p = false) :
    (fs.writeFile p d).filesUnder dir = fs.filesUnder dir := by
  unfold FS.filesUnder
  rcases FS.files_fst_writeFile fs p d with hsame | happ
  · rw [hsame]
  · rw [happ, List.filter_append]
    simp [h]

theorem dirs_saveServers (fs : FS) (l : List ServerRec) :
    (saveServers fs l).dirs = fs.dirs := by
  unfold saveServers
  exact FS.dirs_writeFile fs STATE_FILE (.json l)

/-- C7: delete fails with NotFound when the registry has no record with the
id, fails with Conflict when a live process is mapped to the id — each
failure leaving the whole state unchanged — and otherwise succeeds,
removing exactly the records with that id from persisted storage (all
others preserved in order), removing the instance directory and every file
beneath it, and leaving the live mapping untouched. -/
theorem deleteServer_contract (st : Sys) (id : String) :
    ((loadServers st.fs).find? (fun r => r.id == id) = none →
      deleteServer st id = (.error .NotFound, st)) ∧
    (∀ s, (loadServers st.fs).find? (fun r => r.id == id) = some s →
      st.hasLive id = true → deleteServer st id = (.error .Conflict, st)) ∧
    (∀ s, (loadServers st.fs).find? (fun r => r.id == id) = some s →
      st.hasLive id = false →
      strStarts (s.dir ++ "/") STATE_FILE = false →
      (deleteServer st id).1 = .ok () ∧
      loadServers (deleteServer st id).2.fs =
        (loadServers st.fs).filter (fun r => !(r.id == id)) ∧
      s.dir ∉ (deleteServer st id).2.fs.dirs ∧
      (deleteServer st id).2.fs.filesUnder s.dir = [] ∧
      (deleteServer st id).2.procMap = st.procMap) := by
  refine ⟨?_, ?_, ?_⟩
  · intro hf
    simp only [deleteServer]
    rw [hf]
  · intro s hf hl
    simp [deleteServer, hf, hl]
  · intro s hf hl hside
    have hres : deleteServer st id =
        (.ok (), { st with fs := (saveServers (st.fs.rmRec s.dir)
          ((loadServers st.fs).filter (fun r => !(r.id == id)))) }) := by
      simp [deleteServer, hf, hl]
    rw [hres]
    refine ⟨rfl, loadServers_saveServers _ _, ?_, ?_, rfl⟩
    · show s.dir ∉ (saveServers (st.fs.rmRec s.dir) _).dirs
      rw [dirs_saveServers]
      exact FS.not_mem_dirs_rmRec st.fs s.dir
    · show (saveServers (st.fs.rmRec s.dir) _).filesUnder s.dir = []
      unfold saveServers
      rw [FS.filesUnder_writeFile_of_not_under _ _ _ _ hside]
      exact FS.filesUnder_rmRec_self st.fs s.dir

theorem deleteServer_contract_witness :
    deleteServer stB "zzz" = (.error .NotFound, stB) ∧
    deleteServer stLive "alpha-ab0cd" = (.error .Conflict, stLive) ∧
    ((deleteServer stB "alpha-ab0cd").1 = .ok () ∧
     loadServers (deleteServer stB "alpha-ab0cd").2.fs =
       (loadServers stB.fs).filter (fun r => !(r.id == "alpha-ab0cd")) ∧
     recA.dir ∉ (deleteServer stB "alpha-ab0cd").2.fs.dirs ∧
     (deleteServer stB "alpha-ab0cd").2.fs.filesUnder recA.dir = [] ∧
     (deleteServer stB "alpha-ab0cd").2.procMap = stB.procMap) :=
  ⟨(deleteServer_contract stB "zzz").1 (by decide),
   (deleteServer_contract stLive "alpha-ab0cd").2.1 recA (by decide) (by decide),
   (deleteServer_contract stB "alpha-ab0cd").2.2 recA (by decide) (by decide)
     (by decide)⟩

/- Slug and id facts. -/

theorem collapseAux_chars (l : List Char) :
    ∀ (b : Bool), ∀ c ∈ collapseAux b l, isSlugChar c = true ∨ c = '-' := by
  induction l with
  | nil =>
    intro b c hc
    simp [collapseAux] at hc
  | cons d t ih =>
    intro b c hc
    unfold collapseAux at hc
    by_cases hd : isSlugChar d
    · rw [if_pos hd] at hc
      rcases List.mem_cons.mp hc with rfl | hmem
      · exact Or.inl hd
      · exact ih false c hmem
    · rw [if_neg hd] at hc
      by_cases hb : b = true
      · rw [if_pos hb] at hc
        exact ih true c hc
      · rw [if_neg hb] at hc
        rcases List.mem_cons.mp hc with rfl | hmem
        · exact Or.inr rfl
        · exact ih true c hmem

theorem stripDashes_subset (l : List Char) : ∀ c ∈ stripDashes l, c ∈ l := by
  intro c hc
  simp only [stripDashes] at hc
  have h1 : ∀ (m : List Char),
      c ∈ (if m.getLast? = some '-' then m.dropLast else m) → c ∈ m := by
    intro m hm
    split at hm
    · exact (List.dropLast_sublist m).subset hm
    · exact hm
  have hc1 := h1 _ hc
  split at hc1
  · exact (List.tail_sublist l).subset hc1
  · exact hc1

theorem slug_chars (name : String) :
    ∀ c ∈ (slugify name).data, isSlugChar c = true ∨ c = '-' := by
  intro c hc
  have hc2 := stripDashes_subset _ c hc
  exact collapseAux_chars _ false c hc2

theorem generateId_data (name rand : String) :
    (generateId name rand).data = (slugify name).data ++ '-' :: rand.data := by
  unfold generateId
  rw [String.data_append, String.data_append, List.append_assoc]
  rfl

theorem normalSeg_generateId (name rand : String)
    (hr : ∀ c ∈ rand.data, isSlugChar c = true) :
    normalSeg (generateId name rand) := by
  have hdata := generateId_data name rand
  have hdash : '-' ∈ (generateId name rand).data := by
    rw [hdata]
    exact List.mem_append_right _ (List.mem_cons_self _ _)
  refine ⟨?_, ?_, ?_, ?_⟩
  · intro h
    rw [h] at hdash
    simp at hdash
  · intro h
    rw [h] at hdash
    exact absurd hdash (by decide)
  · intro h
    rw [h] at hdash
    exact absurd hdash (by decide)
  · intro hs
    rw [hdata] at hs
    rcases List.mem_append.mp hs with h | h
    · rcases slug_chars name '/' h with h2 | h2
      · exact absurd h2 (by decide)
      · exact absurd h2 (by decide)
    · rcases List.mem_cons.mp h with h2 | h2
      · exact absurd h2 (by decide)
      · exact absurd (hr '/' h2) (by decide)

/- More filesystem plumbing for create. -/

theorem files_any_false_of_not_exists (fs : FS) (p : String)
    (h : fs.existsPath p = false) :
    fs.files.any (fun e => e.1 == p) = false := by
  unfold FS.existsPath at h
  rw [Bool.or_eq_false_iff] at h
  exact h.1

theorem files_any_false_of_filesUnder (fs : FS) (dir p : String)
    (hu : fs.filesUnder dir = []) (hp : strStarts (dir ++ "/") p = true) :
    fs.files.any (fun e => e.1 == p) = false := by
  rw [Bool.eq_false_iff]
  intro hany
  rw [List.any_eq_true] at hany
  obtain ⟨e, he, hep⟩ := hany
  have hfst : e.1 = p := by rw [← beq_iff_eq]; exact hep
  have hmem : p ∈ fs.filesUnder dir := by
    unfold FS.filesUnder
    rw [List.mem_filter]
    exact ⟨List.mem_map.mpr ⟨e, he, hfst⟩, hp⟩
  rw [hu] at hmem
  simp at hmem

theorem FS.filesUnder_mkdirp (fs : FS) (p dir : String) :
    (fs.mkdirp p).filesUnder dir = fs.filesUnder dir := by
  unfold FS.filesUnder
  rw [FS.files_mkdirp]

theorem FS.writeFile_files_of_absent (fs : FS) (p : String) (d : FileData)
    (h : fs.files.any (fun e => e.1 == p) = false) :
    (fs.writeFile p d).files = fs.files ++ [(p, d)] := by
  unfold FS.writeFile
  rw [if_neg (by rw [h]; exact Bool.false_ne_true)]

theorem FS.filesUnder_writeFile_absent_under (fs : FS) (p : String)
    (d : FileData) (dir : String)
    (hany : fs.files.any (fun e => e.1 == p) = false)
    (hunder : strStarts (dir ++ "/") p = true) :
    (fs.writeFile p d).filesUnder dir = fs.filesUnder dir ++ [p] := by
  rw [show (fs.writeFile p d).filesUnder dir =
      ({ fs with files := fs.files ++ [(p, d)] } : FS).filesUnder dir from by
    rw [FS.filesUnder, FS.writeFile_files_of_absent fs p d hany]
    rfl]
  unfold FS.filesUnder
  simp only [List.map_append, List.filter_append, List.map_cons, List.map_nil]
  rw [show List.filter (fun q => strStarts (dir ++ "/") q) [p] = [p] from by
    simp [hunder]]

theorem find?_append_singleton {α : Type} (l : List α) (p : α → Bool) (x : α)
    (hl : ∀ a ∈ l, p a = false) (hx : p x = true) :
    (l ++ [x]).find? p = some x := by
  rw [List.find?_append]
  rw [List.find?_eq_none.mpr (fun a ha hpa => by rw [hl a ha] at hpa; simp at hpa)]
  simp [List.find?, hx]

/- Basename and create-shape facts. -/

theorem basename_no_slash (s : String) : '/' ∉ (basename s).data := by
  intro hmem
  have hmem' : '/' ∈ ((s.data.reverse.dropWhile (fun c => c = '/')).takeWhile
      (fun c => c ≠ '/')) := List.mem_reverse.mp hmem
  have := List.mem_takeWhile_imp hmem'
  simp at this

theorem createServer_ok_shape (st : Sys) (name : String) (port : Nat)
    (mem : Option Nat) (jar rand : String) (r : ServerRec)
    (h : (createServer st name port mem jar rand).1 = .ok r) :
    r = { id := generateId name rand, name := name, port := port,
          maxMemoryMB := (if mem.getD 0 = 0 then 1024 else mem.getD 0),
          jar := basename jar, dir := pathJoin SERVERS_DIR (generateId name rand) } := by
  by_cases hv : name = "" ∨ port = 0 ∨ jar = ""
  · unfold createServer at h
    rw [if_pos hv] at h
    simp at h
  · by_cases hj : st.fs.existsPath (pathJoin JAR_DIR (basename jar)) = true
    · unfold createServer at h
      rw [if_neg hv] at h
      simp only [hj, Bool.not_true, if_neg Bool.false_ne_true] at h
      exact (Except.ok.inj h).symm
    · unfold createServer at h
      rw [if_neg hv] at h
      rw [Bool.not_eq_true] at hj
      simp [hj] at h

/- Log splitting and joining. -/

theorem splitLinesAux_nil (acc : List Char) :
    splitLinesAux acc [] = [String.mk acc.reverse] := rfl

theorem splitLinesAux_lf (acc rest : List Char) :
    splitLinesAux acc ('\n' :: rest) =
      String.mk acc.reverse :: splitLinesAux [] rest := rfl

theorem splitLinesAux_other (acc : List Char) (c : Char) (rest : List Char)
    (h1 : c ≠ '\r') (h2 : c ≠ '\n') :
    splitLinesAux acc (c :: rest) = splitLinesAux (c :: acc) rest := by
  rw [splitLinesAux.eq_def]
  split
  · rename_i heq
    simp at heq
  · rename_i heq
    exact absurd (List.cons.inj heq).1 h1
  · rename_i heq
    exact absurd (List.cons.inj heq).1 h2
  · rename_i heq
    obtain ⟨hc, hr⟩ := List.cons.inj heq
    rw [hc, hr]

theorem joinLines_cons (l x : String) (xs : List String) :
    joinLines (l :: x :: xs) = l ++ "\n" ++ joinLines (x :: xs) := rfl

theorem splitLinesAux_append_line (l rest acc : List Char)
    (hl : ∀ c ∈ l, c ≠ '\n' ∧ c ≠ '\r') :
    splitLinesAux acc (l ++ '\n' :: rest) =
      String.mk (acc.reverse ++ l) :: splitLinesAux [] rest := by
  induction l generalizing acc with
  | nil =>
    rw [List.nil_append, splitLinesAux_lf, List.append_nil]
  | cons c t ih =>
    have hc := hl c (List.mem_cons_self c t)
    rw [List.cons_append, splitLinesAux_other acc c _ hc.2 hc.1,
        ih _ (fun d hd => hl d (List.mem_cons_of_mem c hd)),
        List.reverse_cons, List.append_assoc]
    rfl

theorem splitLinesAux_no_sep (l acc : List Char)
    (hl : ∀ c ∈ l, c ≠ '\n' ∧ c ≠ '\r') :
    splitLinesAux acc l = [String.mk (acc.reverse ++ l)] := by
  induction l generalizing acc with
  | nil => rw [splitLinesAux_nil, List.append_nil]
  | cons c t ih =>
    have hc := hl c (List.mem_cons_self c t)
    rw [splitLinesAux_other acc c _ hc.2 hc.1,
        ih _ (fun d hd => hl d (List.mem_cons_of_mem c hd)),
        List.reverse_cons, List.append_assoc]
    rfl

theorem splitLines_joinLines (ls : List String) (hne : ls ≠ [])
    (hclean : ∀ l ∈ ls, ∀ c ∈ l.data, c ≠ '\n' ∧ c ≠ '\r') :
    splitLines (joinLines ls) = ls := by
  induction ls with
  | nil => exact absurd rfl hne
  | cons l ls ih =>
    cases ls with
    | nil =>
      unfold splitLines
      rw [show joinLines [l] = l from rfl,
          splitLinesAux_no_sep l.data [] (hclean l (List.mem_cons_self l []))]
      rfl
    | cons l2 ls2 =>
      unfold splitLines
      have hdata : (joinLines (l :: l2 :: ls2)).data =
          l.data ++ '\n' :: (joinLines (l2 :: ls2)).data := by
        rw [joinLines_cons, String.data_append, String.data_append,
            List.append_assoc]
        rfl
      rw [hdata,
          splitLinesAux_append_line _ _ _
            (fun c hc => hclean l (List.mem_cons_self l _) c hc)]
      have htail := ih (by simp)
        (fun x hx => hclean x (List.mem_cons_of_mem l hx))
      unfold splitLines at htail
      rw [htail]
      rfl

theorem joinLines_append (ls1 ls2 : List String) (h1 : ls1 ≠ [])
    (h2 : ls2 ≠ []) :
    joinLines (ls1 ++ ls2) = joinLines ls1 ++ "\n" ++ joinLines ls2 := by
  induction ls1 with
  | nil => exact absurd rfl h1
  | cons l t ih =>
    cases t with
    | nil =>
      cases ls2 with
      | nil => exact absurd rfl h2
      | cons x xs => rfl
    | cons y ys =>
      rw [show ((l :: y :: ys) ++ ls2) = l :: ((y :: ys) ++ ls2) from rfl]
      rw [show ((y :: ys) ++ ls2) = y :: (ys ++ ls2) from rfl, joinLines_cons,
          joinLines_cons]
      have hih := ih (List.cons_ne_nil y ys)
      rw [show y :: (ys ++ ls2) = (y :: ys) ++ ls2 from rfl, hih]
      rw [← String.append_assoc, ← String.append_assoc]

theorem joinLines_replicate_length (n : Nat) :
    (joinLines (List.replicate (n + 1) "x")).data.length = 2 * n + 1 := by
  induction n with
  | zero => rfl
  | succ k ih =>
    rw [List.replicate_succ, List.replicate_succ, joinLines_cons,
        ← List.replicate_succ]
    simp only [String.data_append, List.length_append]
    rw [ih]
    simp only [List.length_cons, List.length_nil]
    omega

/-- C5: tail fails with NotFound when the registry record does not exist;
returns empty content (not an error) when the record exists but the log
file does not; for a log that fits in the 1 MiB window it splits the whole
file on line boundaries and returns the final at-most-2000 lines joined by
newlines — on a log of exactly 3000 lines, exactly the last 2000; and for
a log strictly larger than 1 MiB whose final 1048576 bytes start at a line
boundary, it reads only that final 1 MiB — every earlier line is discarded
— and returns the final at-most-2000 lines of the window. -/
theorem tailLogs_contract (st : Sys) (id : String) :
    (getServer st.fs id = none → tailLogs st id = .error .NotFound) ∧
    (∀ s, getServer st.fs id = some s →
      st.fs.readFileText (pathJoin s.dir "console.log") = none →
      tailLogs st id = .ok "") ∧
    (∀ s ls, getServer st.fs id = some s →
      st.fs.readFileText (pathJoin s.dir "console.log") = some (joinLines ls) →
      (joinLines ls).data.length ≤ 1048576 →
      (∀ l ∈ ls, ∀ c ∈ l.data, c ≠ '\n' ∧ c ≠ '\r') →
      ls ≠ [] →
      tailLogs st id = .ok (joinLines (ls.drop (ls.length - 2000)))) ∧
    (∀ s ls, getServer st.fs id = some s →
      st.fs.readFileText (pathJoin s.dir "console.log") = some (joinLines ls) →
      (joinLines ls).data.length ≤ 1048576 →
      (∀ l ∈ ls, ∀ c ∈ l.data, c ≠ '\n' ∧ c ≠ '\r') →
      ls.length = 3000 →
      tailLogs st id = .ok (joinLines (ls.drop 1000))) ∧
    (∀ s ls1 ls2, getServer st.fs id = some s →
      st.fs.readFileText (pathJoin s.dir "console.log") =
        some (joinLines (ls1 ++ ls2)) →
      ls1 ≠ [] →
      ls2 ≠ [] →
      (joinLines ls2).data.length = 1048576 →
      (∀ l ∈ ls2, ∀ c ∈ l.data, c ≠ '\n' ∧ c ≠ '\r') →
      tailLogs st id = .ok (joinLines (ls2.drop (ls2.length - 2000)))) := by
  have key : ∀ s ls, getServer st.fs id = some s →
      st.fs.readFileText (pathJoin s.dir "console.log") = some (joinLines ls) →
      (joinLines ls).data.length ≤ 1048576 →
      (∀ l ∈ ls, ∀ c ∈ l.data, c ≠ '\n' ∧ c ≠ '\r') →
      ls ≠ [] →
      tailLogs st id = .ok (joinLines (ls.drop (ls.length - 2000))) := by
    intro s ls hs hfile hlen hclean hne
    simp only [tailLogs, hs, hfile]
    have hsize : min (joinLines ls).data.length 1048576 =
        (joinLines ls).data.length := Nat.min_eq_left hlen
    rw [hsize]
    have hbuf : lastBytes (joinLines ls) ((joinLines ls).data.length) =
        joinLines ls := by
      unfold lastBytes
      rw [Nat.sub_self, List.drop_zero]
    rw [hbuf, splitLines_joinLines ls hne hclean]
  refine ⟨?_, ?_, key, ?_, ?_⟩
  · intro h
    simp only [tailLogs, h]
  · intro s hs hfile
    simp only [tailLogs, hs, hfile]
  · intro s ls hs hfile hlen hclean hlen3000
    have hne : ls ≠ [] := by
      intro h
      rw [h] at hlen3000
      simp at hlen3000
    rw [key s ls hs hfile hlen hclean hne, hlen3000]
  · intro s ls1 ls2 hs hfile hne1 hne2 hwin hclean2
    have hjoin := joinLines_append ls1 ls2 hne1 hne2
    have hdata : (joinLines (ls1 ++ ls2)).data =
        ((joinLines ls1).data ++ ['\n']) ++ (joinLines ls2).data := by
      rw [hjoin, String.data_append, String.data_append, List.append_assoc]
    have htotal : (joinLines (ls1 ++ ls2)).data.length =
        ((joinLines ls1).data.length + 1) + 1048576 := by
      rw [hdata, List.length_append, List.length_append, hwin]
      simp only [List.length_cons, List.length_nil]
    have hmin : min (joinLines (ls1 ++ ls2)).data.length 1048576 = 1048576 := by
      rw [htotal]
      exact Nat.min_eq_right (by omega)
    have hcut : lastBytes (joinLines (ls1 ++ ls2)) 1048576 = joinLines ls2 := by
      unfold lastBytes
      rw [hdata]
      have hdrop : (((joinLines ls1).data ++ ['\n']) ++
          (joinLines ls2).data).length - 1048576 =
          ((joinLines ls1).data ++ ['\n']).length := by
        rw [List.length_append, List.length_append, hwin]
        simp only [List.length_cons, List.length_nil]
        omega
      rw [hdrop, List.drop_left]
    simp only [tailLogs, hs, hfile]
    rw [hmin, hcut, splitLines_joinLines ls2 hne2 hclean2]

theorem tailLogs_contract_witness :
    tailLogs stB "zzz" = .error .NotFound ∧
    tailLogs stB "alpha-ab0cd" = .ok "" ∧
    tailLogs stTail "alpha-ab0cd" =
      .ok (joinLines ((List.replicate 3000 "x").drop 1000)) ∧
    tailLogs stTailBig "alpha-ab0cd" =
      .ok (joinLines (("xx" :: List.replicate 524287 "x").drop
        (("xx" :: List.replicate 524287 "x").length - 2000))) :=
  ⟨(tailLogs_contract stB "zzz").1 (by decide),
   (tailLogs_contract stB "alpha-ab0cd").2.1 recA (by decide) (by decide),
   (tailLogs_contract stTail "alpha-ab0cd").2.2.2.1 recA
     (List.replicate 3000 "x") (by decide) (by rfl)
     (by rw [show (3000 : Nat) = 2999 + 1 from rfl, joinLines_replicate_length]
         omega)
     (by intro l hl
         rw [List.eq_of_mem_replicate hl]
         decide)
     (by rw [List.length_replicate]),
   (tailLogs_contract stTailBig "alpha-ab0cd").2.2.2.2 recA ["aaa"]
     ("xx" :: List.replicate 524287 "x") (by decide) (by rfl) (by decide)
     (List.cons_ne_nil _ _)
     (by rw [show (524287 : Nat) = 524286 + 1 from rfl, List.replicate_succ,
             joinLines_cons, String.data_append, List.length_append,
             show ("xx" ++ "\n" : String).data.length = 3 from rfl,
             ← List.replicate_succ, joinLines_replicate_length])
     (by intro l hl
         rcases List.mem_cons.mp hl with rfl | hm
         · decide
         · rw [List.eq_of_mem_replicate hm]
           decide)⟩

/-- C6: create fails with InvalidArgument when name, port or jar is missing
(falsy), fails when the jar reference does not resolve to an existing
artifact, and otherwise — for a plain-filename jar reference, a fresh id
and a 5-character alphanumeric random suffix — returns a record whose
fields match the input, with id equal to the slug of the name plus the
suffix; it appends exactly that record to persisted storage, so that a
subsequent get(id) returns it, and creates the instance directory
containing exactly the two default configuration files. -/
theorem createServer_contract (st : Sys) (name : String) (port : Nat)
    (mem : Nat) (jar rand : String) :
    ((name = "" ∨ port = 0 ∨ jar = "") →
      createServer st name port (some mem) jar rand =
        (.error .InvalidArgument, st)) ∧
    (¬(name = "" ∨ port = 0 ∨ jar = "") →
      st.fs.existsPath (pathJoin JAR_DIR (basename jar)) = false →
      createServer st name port (some mem) jar rand =
        (.error .NotFound, st)) ∧
    (¬(name = "" ∨ port = 0 ∨ jar = "") →
      mem ≠ 0 →
      basename jar = jar →
      st.fs.existsPath (pathJoin JAR_DIR jar) = true →
      rand.length = 5 →
      (∀ c ∈ rand.data, isSlugChar c = true) →
      (∀ r0 ∈ loadServers st.fs, r0.id ≠ generateId name rand) →
      st.fs.existsPath (pathJoin (pathJoin SERVERS_DIR (generateId name rand))
        "server.properties") = false →
      st.fs.filesUnder (pathJoin SERVERS_DIR (generateId name rand)) = [] →
      ((createServer st name port (some mem) jar rand).1 =
        .ok { id := generateId name rand, name := name, port := port,
              maxMemoryMB := mem, jar := jar,
              dir := pathJoin SERVERS_DIR (generateId name rand) } ∧
       loadServers (createServer st name port (some mem) jar rand).2.fs =
         loadServers st.fs ++
           [{ id := generateId name rand, name := name, port := port,
              maxMemoryMB := mem, jar := jar,
              dir := pathJoin SERVERS_DIR (generateId name rand) }] ∧
       getServer (createServer st name port (some mem) jar rand).2.fs
           (generateId name rand) =
         some { id := generateId name rand, name := name, port := port,
                maxMemoryMB := mem, jar := jar,
                dir := pathJoin SERVERS_DIR (generateId name rand) } ∧
       pathJoin SERVERS_DIR (generateId name rand) ∈
         (createServer st name port (some mem) jar rand).2.fs.dirs ∧
       (createServer st name port (some mem) jar rand).2.fs.filesUnder
           (pathJoin SERVERS_DIR (generateId name rand)) =
         [pathJoin (pathJoin SERVERS_DIR (generateId name rand))
            "server.properties",
          pathJoin (pathJoin SERVERS_DIR (generateId name rand))
            "eula.txt"])) := by
  refine ⟨?_, ?_, ?_⟩
  · intro hv
    unfold createServer
    rw [if_pos hv]
  · intro hv hj
    unfold createServer
    rw [if_neg hv]
    simp [hj]
  · intro hv hmem hbase hex hr5 hrch hfrec hpropex hfund
    have hid : normalSeg (generateId name rand) := normalSeg_generateId name rand hrch
    have hdir : pathJoin SERVERS_DIR (generateId name rand) =
        "data/servers/" ++ generateId name rand := pathJoin_servers _ hid
    have hnsp : normalSeg "server.properties" :=
      ⟨by decide, by decide, by decide, by decide⟩
    have hnse : normalSeg "eula.txt" := ⟨by decide, by decide, by decide, by decide⟩
    have hpp : pathJoin (pathJoin SERVERS_DIR (generateId name rand))
        "server.properties" =
        ("data/servers/" ++ generateId name rand) ++ "/" ++ "server.properties" := by
      rw [hdir]
      exact pathJoin_under_servers _ _ hid hnsp
    have hpe : pathJoin (pathJoin SERVERS_DIR (generateId name rand)) "eula.txt" =
        ("data/servers/" ++ generateId name rand) ++ "/" ++ "eula.txt" := by
      rw [hdir]
      exact pathJoin_under_servers _ _ hid hnse
    have hdirne : pathJoin SERVERS_DIR (generateId name rand) ≠ STATE_FILE := by
      rw [hdir]
      exact dirservers_ne_state _
    have hppne : pathJoin (pathJoin SERVERS_DIR (generateId name rand))
        "server.properties" ≠ STATE_FILE := by
      rw [hpp, String.append_assoc, String.append_assoc]
      exact dirservers_ne_state _
    have hpene : pathJoin (pathJoin SERVERS_DIR (generateId name rand))
        "eula.txt" ≠ STATE_FILE := by
      rw [hpe, String.append_assoc, String.append_assoc]
      exact dirservers_ne_state _
    have hstr : strStarts (pathJoin SERVERS_DIR (generateId name rand) ++ "/")
        STATE_FILE = false := by
      rw [hdir, String.append_assoc]
      exact strStarts_dirservers_state _
    have hdne : pathJoin (pathJoin SERVERS_DIR (generateId name rand))
        "server.properties" ≠ pathJoin SERVERS_DIR (generateId name rand) := by
      rw [hpp, hdir, String.append_assoc]
      intro heq
      exact ne_append_nonempty ("data/servers/" ++ generateId name rand)
        ("/" ++ "server.properties") (by decide) heq.symm
    have hup : strStarts (pathJoin SERVERS_DIR (generateId name rand) ++ "/")
        (pathJoin (pathJoin SERVERS_DIR (generateId name rand))
          "server.properties") = true := by
      rw [hpp, hdir]
      exact strStarts_self_append _ _
    have hue : strStarts (pathJoin SERVERS_DIR (generateId name rand) ++ "/")
        (pathJoin (pathJoin SERVERS_DIR (generateId name rand)) "eula.txt") =
        true := by
      rw [hpe, hdir]
      exact strStarts_self_append _ _
    have hppee : pathJoin (pathJoin SERVERS_DIR (generateId name rand))
        "server.properties" ≠
        pathJoin (pathJoin SERVERS_DIR (generateId name rand)) "eula.txt" := by
      rw [hpp, hpe]
      exact append_right_ne _ (by decide)
    have hanyprop : st.fs.files.any (fun e => e.1 ==
        pathJoin (pathJoin SERVERS_DIR (generateId name rand))
          "server.properties") = false :=
      files_any_false_of_not_exists st.fs _ hpropex
    have hexprop1 : (st.fs.mkdirp (pathJoin SERVERS_DIR
        (generateId name rand))).existsPath
        (pathJoin (pathJoin SERVERS_DIR (generateId name rand))
          "server.properties") = false := by
      rw [FS.existsPath_mkdirp_of_ne st.fs hdne]
      exact hpropex
    have hanyprop1 : (st.fs.mkdirp (pathJoin SERVERS_DIR
        (generateId name rand))).files.any (fun e => e.1 ==
        pathJoin (pathJoin SERVERS_DIR (generateId name rand))
          "server.properties") = false := by
      rw [FS.files_mkdirp]
      exact hanyprop
    have hf2 : ((st.fs.mkdirp (pathJoin SERVERS_DIR
        (generateId name rand))).writeFile
        (pathJoin (pathJoin SERVERS_DIR (generateId name rand))
          "server.properties")
        (.text ("server-port=" ++ toString port ++
          "\nmax-players=20\nenable-jmx-monitoring=false\n"))).files =
        st.fs.files ++ [(pathJoin (pathJoin SERVERS_DIR (generateId name rand))
          "server.properties",
          .text ("server-port=" ++ toString port ++
            "\nmax-players=20\nenable-jmx-monitoring=false\n"))] := by
      rw [FS.writeFile_files_of_absent _ _ _ hanyprop1, FS.files_mkdirp]
    have hany_eula : ((st.fs.mkdirp (pathJoin SERVERS_DIR
        (generateId name rand))).writeFile
        (pathJoin (pathJoin SERVERS_DIR (generateId name rand))
          "server.properties")
        (.text ("server-port=" ++ toString port ++
          "\nmax-players=20\nenable-jmx-monitoring=false\n"))).files.any
        (fun e => e.1 == pathJoin (pathJoin SERVERS_DIR
          (generateId name rand)) "eula.txt") = false := by
      rw [hf2, List.any_append]
      rw [files_any_false_of_filesUnder st.fs _ _ hfund hue]
      simp only [List.any_cons, List.any_nil]
      rw [show ((pathJoin (pathJoin SERVERS_DIR (generateId name rand))
        "server.properties", FileData.text ("server-port=" ++ toString port ++
          "\nmax-players=20\nenable-jmx-monitoring=false\n")).1 ==
        pathJoin (pathJoin SERVERS_DIR (generateId name rand)) "eula.txt") =
        false from beq_eq_false_iff_ne.mpr hppee]
      rfl
    have hfu1 : (st.fs.mkdirp (pathJoin SERVERS_DIR
        (generateId name rand))).filesUnder
        (pathJoin SERVERS_DIR (generateId name rand)) = [] := by
      rw [FS.filesUnder_mkdirp]
      exact hfund
    have hfu3 : (((st.fs.mkdirp (pathJoin SERVERS_DIR
        (generateId name rand))).writeFile
        (pathJoin (pathJoin SERVERS_DIR (generateId name rand))
          "server.properties")
        (.text ("server-port=" ++ toString port ++
          "\nmax-players=20\nenable-jmx-monitoring=false\n"))).writeFile
        (pathJoin (pathJoin SERVERS_DIR (generateId name rand)) "eula.txt")
        (.text "eula=true\n")).filesUnder
        (pathJoin SERVERS_DIR (generateId name rand)) =
        [pathJoin (pathJoin SERVERS_DIR (generateId name rand))
          "server.properties",
         pathJoin (pathJoin SERVERS_DIR (generateId name rand)) "eula.txt"] := by
      rw [FS.filesUnder_writeFile_absent_under _ _ _ _ hany_eula hue,
          FS.filesUnder_writeFile_absent_under _ _ _ _ hanyprop1 hup, hfu1]
      rfl
    have hl3 : loadServers (((st.fs.mkdirp (pathJoin SERVERS_DIR
        (generateId name rand))).writeFile
        (pathJoin (pathJoin SERVERS_DIR (generateId name rand))
          "server.properties")
        (.text ("server-port=" ++ toString port ++
          "\nmax-players=20\nenable-jmx-monitoring=false\n"))).writeFile
        (pathJoin (pathJoin SERVERS_DIR (generateId name rand)) "eula.txt")
        (.text "eula=true\n")) = loadServers st.fs := by
      rw [loadServers_writeFile_of_ne _ _ hpene,
          loadServers_writeFile_of_ne _ _ hppne,
          loadServers_mkdirp_of_ne _ hdirne]
    have hres : createServer st name port (some mem) jar rand =
        (.ok { id := generateId name rand, name := name, port := port,
               maxMemoryMB := mem, jar := jar,
               dir := pathJoin SERVERS_DIR (generateId name rand) },
         { st with fs := (saveServers (((st.fs.mkdirp (pathJoin SERVERS_DIR
             (generateId name rand))).writeFile
             (pathJoin (pathJoin SERVERS_DIR (generateId name rand))
               "server.properties")
             (.text ("server-port=" ++ toString port ++
               "\nmax-players=20\nenable-jmx-monitoring=false\n"))).writeFile
             (pathJoin (pathJoin SERVERS_DIR (generateId name rand)) "eula.txt")
             (.text "eula=true\n"))
             (loadServers st.fs ++
               [{ id := generateId name rand, name := name, port := port,
                  maxMemoryMB := mem, jar := jar,
                  dir := pathJoin SERVERS_DIR (generateId name rand) }])) }) := by
      simp only [createServer, if_neg hv, hbase, hex, Bool.not_true,
        if_neg Bool.false_ne_true]
      rw [hexprop1]
      simp only [Bool.false_eq_true, if_false, Option.getD, if_neg hmem, hl3]
    rw [hres]
    refine ⟨rfl, ?_, ?_, ?_, ?_⟩
    · rw [loadServers_saveServers]
    · unfold getServer
      rw [loadServers_saveServers]
      refine find?_append_singleton _ _ _
        (fun r0 h0 => beq_eq_false_iff_ne.mpr (hfrec r0 h0)) ?_
      exact beq_self_eq_true _
    · show pathJoin SERVERS_DIR (generateId name rand) ∈ (saveServers _ _).dirs
      rw [dirs_saveServers, FS.dirs_writeFile, FS.dirs_writeFile]
      exact FS.mem_dirs_mkdirp st.fs _
    · show (saveServers _ _).filesUnder _ = _
      unfold saveServers
      rw [FS.filesUnder_writeFile_of_not_under _ _ _ _ hstr]
      exact hfu3

theorem createServer_contract_witness :
    ((createServer stB "My World" 25565 (some 2048) "paper.jar" "x1y2z").1 =
      .ok { id := generateId "My World" "x1y2z", name := "My World",
            port := 25565, maxMemoryMB := 2048, jar := "paper.jar",
            dir := pathJoin SERVERS_DIR (generateId "My World" "x1y2z") } ∧
     loadServers (createServer stB "My World" 25565 (some 2048) "paper.jar"
         "x1y2z").2.fs =
       loadServers stB.fs ++
         [{ id := generateId "My World" "x1y2z", name := "My World",
            port := 25565, maxMemoryMB := 2048, jar := "paper.jar",
            dir := pathJoin SERVERS_DIR (generateId "My World" "x1y2z") }] ∧
     getServer (createServer stB "My World" 25565 (some 2048) "paper.jar"
         "x1y2z").2.fs (generateId "My World" "x1y2z") =
       some { id := generateId "My World" "x1y2z", name := "My World",
              port := 25565, maxMemoryMB := 2048, jar := "paper.jar",
              dir := pathJoin SERVERS_DIR (generateId "My World" "x1y2z") } ∧
     pathJoin SERVERS_DIR (generateId "My World" "x1y2z") ∈
       (createServer stB "My World" 25565 (some 2048) "paper.jar"
         "x1y2z").2.fs.dirs ∧
     (createServer stB "My World" 25565 (some 2048) "paper.jar"
         "x1y2z").2.fs.filesUnder
         (pathJoin SERVERS_DIR (generateId "My World" "x1y2z")) =
       [pathJoin (pathJoin SERVERS_DIR (generateId "My World" "x1y2z"))
          "server.properties",
        pathJoin (pathJoin SERVERS_DIR (generateId "My World" "x1y2z"))
          "eula.txt"]) :=
  (createServer_contract stB "My World" 25565 2048 "paper.jar" "x1y2z").2.2
    (by decide) (by decide) (by decide) (by decide) (by decide) (by decide)
    (by decide) (by decide) (by decide)

/-- C10 (amended): every record produced by create stores as its jar field
the basename of the supplied jar reference, which contains no directory
separator; and the executable path start resolves — the artifact directory
joined with that stored basename — lies inside the artifact directory for
every stored basename except the special component "..", which escapes to
the artifact directory's parent. -/
theorem create_jar_confinement (st : Sys) (name : String) (port : Nat)
    (mem : Option Nat) (jar rand : String) (r : ServerRec)
    (h : (createServer st name port mem jar rand).1 = .ok r) :
    r.jar = basename jar ∧ '/' ∉ r.jar.data ∧
    (r.jar ≠ ".." → insideJarDir (pathJoin JAR_DIR r.jar)) := by
  have hr := createServer_ok_shape st name port mem jar rand r h
  have hjar : r.jar = basename jar := by rw [hr]
  have hns : '/' ∉ r.jar.data := by
    rw [hjar]
    exact basename_no_slash jar
  refine ⟨hjar, hns, ?_⟩
  intro hne
  by_cases h0 : r.jar = ""
  · rw [h0]
    decide
  · by_cases h1 : r.jar = "."
    · rw [h1]
      decide
    · right
      rw [pathJoin_jars r.jar ⟨h0, h1, hne, hns⟩]
      show strStarts (JAR_DIR ++ "/") _ = true
      rw [show JAR_DIR ++ "/" = "data/jars/" from rfl]
      exact strStarts_self_append "data/jars/" r.jar

theorem create_jar_confinement_witness :
    ("paper.jar" : String) = basename "paper.jar" ∧
    '/' ∉ ("paper.jar" : String).data ∧
    (("paper.jar" : String) ≠ ".." →
      insideJarDir (pathJoin JAR_DIR "paper.jar")) := by
  have h := create_jar_confinement stB "My World" 25565 (some 2048)
    "paper.jar" "x1y2z"
    { id := "my-world-x1y2z", name := "My World", port := 25565,
      maxMemoryMB := 2048, jar := "paper.jar",
      dir := "data/servers/my-world-x1y2z" } (by decide)
  exact h

/-- C10 counterexample: the jar reference ".." is accepted by create — its
basename is ".." and the joined path resolves to the existing data
directory — and the subsequent start launches a process whose `-jar`
argument is "data", a path outside the data/jars artifact directory. -/
theorem create_jar_escape :
    (createServer stB "w" 1 none ".." "ab1cd").1 =
      .ok { id := "w-ab1cd", name := "w", port := 1, maxMemoryMB := 1024,
            jar := "..", dir := "data/servers/w-ab1cd" } ∧
    (startServer (createServer stB "w" 1 none ".." "ab1cd").2 "w-ab1cd").1 =
      .ok 100 ∧
    lookupProc (startServer (createServer stB "w" 1 none ".." "ab1cd").2
        "w-ab1cd").2.procMap "w-ab1cd" =
      some { pid := 100, cmd := "java",
             args := ["-Xmx1024M", "-Xms512M", "-jar", "data", "nogui"],
             cwd := "data/servers/w-ab1cd", stdinWrites := [],
             logFile := "data/servers/w-ab1cd/console.log" } ∧
    ¬ insideJarDir "data" := by
  decide

theorem startServer_args_witness :
    ∃ p : Proc, (startServer stB "alpha-ab0cd").1 = .ok p.pid ∧
      lookupProc (startServer stB "alpha-ab0cd").2.procMap "alpha-ab0cd" =
        some p ∧
      p.cmd = "java" ∧
      p.args = ["-Xmx" ++ toString recA.maxMemoryMB ++ "M",
                "-Xms" ++ toString (min 512 recA.maxMemoryMB) ++ "M",
                "-jar", pathJoin JAR_DIR recA.jar, "nogui"] ∧
      p.cwd = recA.dir :=
  startServer_args stB "alpha-ab0cd" recA (by decide) (by decide) (by decide)
    (by decide)

end MCSM
